import Mathlib

/-!
# giocanvas: a 2D canvas API on top of an immediate-mode operation list

Shallow embedding of `giocanvas.go`.

* The toolkit's operation list (`c.Context.Ops`) is a `List (Op F)`; every toolkit
  call that adds to it (`ColorOp.Add`, `PaintOp.Add`, `ImageOp.Add`, `StackOp.Push`,
  `StackOp.Pop`, `TransformOp.Add`, `Label.Layout`) is the append of one entry.
* A method with receiver `c *Canvas` is a function from the canvas before the call to the
  canvas after it.
* The coordinate type `F` (Go's `float32`) is a parameter of every definition: each
  definition uses exactly the arithmetic operations the source uses.  Statements that
  need the laws of arithmetic are made at `F = ℚ`, coordinates as exact rationals.
* The `for` loops of `Grid` take a fuel argument bounding the number of evaluations of
  the loop condition; `none` is "still running when the fuel ran out".
* `os.Open` and `image.Decode` are parameters of `CenterImage`.
* `f32.Rect`, `Rectangle.Canon`, `Rectangle.Dx` and `Rectangle.Dy` are the toolkit's
  functions of those names; `f32.Rect` returns a well-formed rectangle, swapping the
  coordinates it is given where necessary.
-/

namespace Giocanvas

/-! ## Toolkit values -/

/-- Go's `color.RGBA`: four 8-bit channels. -/
structure RGBA where
  R : Fin 256
  G : Fin 256
  B : Fin 256
  A : Fin 256
deriving DecidableEq, Repr

/-- The toolkit's `text.Alignment`. -/
inductive Alignment where
  | Start
  | End
  | Middle
deriving DecidableEq, Repr

/-- The toolkit's `f32.Point`. -/
structure Point (F : Type) where
  X : F
  Y : F
deriving DecidableEq, Repr

/-- The toolkit's `f32.Rectangle`, given by two corner points. -/
structure Rectangle (F : Type) where
  Min : Point F
  Max : Point F
deriving DecidableEq, Repr

/-- The toolkit's `f32.Rect(x0, y0, x1, y1)`: shorthand for
`Rectangle{Point{x0, y0}, Point{x1, y1}}`, with the minimum and maximum coordinates
swapped where necessary so that the result is well-formed:
`if x0 > x1 { x0, x1 = x1, x0 }`, `if y0 > y1 { y0, y1 = y1, y0 }`. -/
def f32Rect {F : Type} [LT F] [DecidableRel (fun a b : F => a < b)] (x0 y0 x1 y1 : F) :
    Rectangle F :=
  { Min := { X := if x0 > x1 then x1 else x0, Y := if y0 > y1 then y1 else y0 },
    Max := { X := if x0 > x1 then x0 else x1, Y := if y0 > y1 then y0 else y1 } }

/-- The toolkit's `Rectangle.Canon`: the same region with the minimum and maximum
coordinates swapped where necessary, so that `Min.X ≤ Max.X` and `Min.Y ≤ Max.Y`. -/
def Rectangle.Canon {F : Type} [LT F] [DecidableRel (fun a b : F => a < b)]
    (r : Rectangle F) : Rectangle F :=
  let r1 : Rectangle F :=
    if r.Max.X < r.Min.X then
      { Min := { X := r.Max.X, Y := r.Min.Y }, Max := { X := r.Min.X, Y := r.Max.Y } }
    else r
  if r1.Max.Y < r1.Min.Y then
    { Min := { X := r1.Min.X, Y := r1.Max.Y }, Max := { X := r1.Max.X, Y := r1.Min.Y } }
  else r1

/-- The toolkit's `Rectangle.Dx`: the width of the rectangle. -/
def Rectangle.Dx {F : Type} [Sub F] (r : Rectangle F) : F := r.Max.X - r.Min.X

/-- The toolkit's `Rectangle.Dy`: the height of the rectangle. -/
def Rectangle.Dy {F : Type} [Sub F] (r : Rectangle F) : F := r.Max.Y - r.Min.Y

/-- Go's `image.Point`. -/
structure IPoint where
  X : Int
  Y : Int
deriving DecidableEq, Repr

/-- Go's `image.Rectangle`; an image's pixels are the points with
`Min.X ≤ X < Max.X` and `Min.Y ≤ Y < Max.Y`. -/
structure IRectangle where
  Min : IPoint
  Max : IPoint
deriving DecidableEq, Repr

/-- Go's `Rectangle.Dx`: the width of the rectangle. -/
def IRectangle.Dx (b : IRectangle) : Int := b.Max.X - b.Min.X

/-- Go's `Rectangle.Dy`: the height of the rectangle. -/
def IRectangle.Dy (b : IRectangle) : Int := b.Max.Y - b.Min.Y

/-- A decoded `image.Image`: its bounds and its pixels, row by row. -/
structure Image where
  Bounds : IRectangle
  Pix : List RGBA
deriving DecidableEq, Repr

/-- An opened file: the bytes `image.Decode` reads from it. -/
structure File where
  bytes : List (Fin 256)
deriving DecidableEq, Repr

/-- One entry of the toolkit's operation list. -/
inductive Op (F : Type) where
  /-- `paint.ColorOp{Color: color}.Add(ops)`: set the fill colour. -/
  | ColorOp (color : RGBA)
  /-- `paint.PaintOp{Rect: r}.Add(ops)`: paint the rectangle with the current fill. -/
  | PaintOp (rect : Rectangle F)
  /-- `paint.NewImageOp(im).Add(ops)`: set the fill to an image. -/
  | ImageOp (im : Image)
  /-- `stack.Push(ops)`: save the current transform. -/
  | StackPush
  /-- `op.TransformOp{}.Offset(p).Add(ops)`: offset the coordinate frame by `p`. -/
  | TransformOffset (p : Point F)
  /-- `material.Label(th, unit.Dp(size), s)` with its colour and alignment set, laid out
  by the toolkit's text service. -/
  | LabelLayout (size : F) (s : String) (color : RGBA) (alignment : Alignment)
  /-- `stack.Pop()`: restore the saved transform. -/
  | StackPop
deriving DecidableEq, Repr

/-- The well-formed rectangle an entry paints, when it is a paint operation. -/
def Op.paintBounds {F : Type} [LT F] [DecidableRel (fun a b : F => a < b)] :
    Op F → Option (Rectangle F)
  | Op.PaintOp r => some r.Canon
  | _ => none

/-! ## The canvas -/

/-- The `Canvas` struct; `Ops` is `Context.Ops`, the operation list. -/
structure Canvas (F : Type) where
  Width : F
  Height : F
  TextColor : RGBA
  Ops : List (Op F)
deriving DecidableEq, Repr

/-- `NewCanvas`: a canvas of the given size, black opaque text, a fresh context. -/
def NewCanvas {F : Type} (width height : F) : Canvas F :=
  { Width := width, Height := height, TextColor := ⟨0, 0, 0, 255⟩, Ops := [] }

/-- `ops.Add`: append one entry to the canvas's operation list. -/
def Canvas.add {F : Type} (c : Canvas F) (o : Op F) : Canvas F :=
  { c with Ops := c.Ops ++ [o] }

/-- The well-formed rectangles of the paint operations of the list, in order. -/
def Canvas.painted {F : Type} [LT F] [DecidableRel (fun a b : F => a < b)]
    (c : Canvas F) : List (Rectangle F) :=
  c.Ops.filterMap Op.paintBounds

section Methods

variable {F : Type}

/-- `textops` places text. -/
def Canvas.textops [Sub F] [Div F] [OfNat F 2] (c : Canvas F) (x y size : F)
    (alignment : Alignment) (s : String) (color : RGBA) : Canvas F :=
  let offset : F :=
    match alignment with
    | Alignment.End => x - c.Width
    | Alignment.Middle => x - c.Width / 2
    | Alignment.Start => x
  let c := c.add Op.StackPush
  let c := c.add (Op.TransformOffset { X := offset, Y := y })
  let c := c.add (Op.LabelLayout size s color alignment)
  c.add Op.StackPop

/-- `Text` places text at (x,y). -/
def Canvas.Text [Sub F] [Div F] [OfNat F 2] (c : Canvas F) (x y size : F) (s : String)
    (color : RGBA) : Canvas F :=
  c.textops x y size Alignment.Start s color

/-- `TextMid` places text centered at (x,y). -/
def Canvas.TextMid [Sub F] [Div F] [OfNat F 2] (c : Canvas F) (x y size : F) (s : String)
    (color : RGBA) : Canvas F :=
  c.textops x y size Alignment.Middle s color

/-- `TextEnd` places text aligned to the end. -/
def Canvas.TextEnd [Sub F] [Div F] [OfNat F 2] (c : Canvas F) (x y size : F) (s : String)
    (color : RGBA) : Canvas F :=
  c.textops x y size Alignment.End s color

/-- `Rect` makes a filled rectangle; left corner at (x, y), with dimensions (w,h). -/
def Canvas.Rect [Add F] [LT F] [DecidableRel (fun a b : F => a < b)] (c : Canvas F)
    (x y w h : F) (color : RGBA) : Canvas F :=
  let r := f32Rect x (y + h) (x + w) y
  let c := c.add (Op.ColorOp color)
  c.add (Op.PaintOp r)

/-- `CenterRect` makes a filled rectangle centered at (x, y), with dimensions (w,h). -/
def Canvas.CenterRect [Add F] [Sub F] [Div F] [OfNat F 2] [LT F]
    [DecidableRel (fun a b : F => a < b)] (c : Canvas F) (x y w h : F)
    (color : RGBA) : Canvas F :=
  let r := f32Rect (x - (w / 2)) (y + (h / 2)) (x + (w / 2)) (y - (h / 2))
  let c := c.add (Op.ColorOp color)
  c.add (Op.PaintOp r)

/-- `VLine` makes a vertical line beginning at (x,y) with dimension (w, h);
half of the width is left of x, the other half is to the right of x. -/
def Canvas.VLine [Add F] [Sub F] [Div F] [OfNat F 2] [LT F]
    [DecidableRel (fun a b : F => a < b)] (c : Canvas F) (x y w h : F)
    (color : RGBA) : Canvas F :=
  c.Rect (x - (w / 2)) y w h color

/-- `HLine` makes a horizontal line starting at (x, y), with dimensions (w, h);
half of the height is above y, the other below. -/
def Canvas.HLine [Add F] [Sub F] [Div F] [OfNat F 2] [LT F]
    [DecidableRel (fun a b : F => a < b)] (c : Canvas F) (x y w h : F)
    (color : RGBA) : Canvas F :=
  c.Rect x (y - (h / 2)) w h color

/-- The first loop of `Grid`, entered with loop variable `y`:
`for ; y <= height; y += height / interval { c.HLine(0, y, width, size, color) }`. -/
def Canvas.gridHLoop [Add F] [Sub F] [Div F] [OfNat F 2] [OfNat F 0] [LT F]
    [DecidableRel (fun a b : F => a < b)] [LE F] [DecidableRel (fun a b : F => a ≤ b)]
    (width height size interval : F) (color : RGBA) :
    Nat → Canvas F → F → Option (Canvas F)
  | 0, _, _ => none
  | fuel + 1, c, y =>
    if y ≤ height then
      Canvas.gridHLoop width height size interval color fuel
        (c.HLine 0 y width size color) (y + height / interval)
    else some c

/-- The second loop of `Grid`, entered with loop variable `x`:
`for ; x <= width; x += width / interval { c.VLine(x, 0, size, height, color) }`. -/
def Canvas.gridVLoop [Add F] [Sub F] [Div F] [OfNat F 2] [OfNat F 0] [LT F]
    [DecidableRel (fun a b : F => a < b)] [LE F] [DecidableRel (fun a b : F => a ≤ b)]
    (width height size interval : F) (color : RGBA) :
    Nat → Canvas F → F → Option (Canvas F)
  | 0, _, _ => none
  | fuel + 1, c, x =>
    if x ≤ width then
      Canvas.gridVLoop width height size interval color fuel
        (c.VLine x 0 size height color) (x + width / interval)
    else some c

/-- `Grid` uses horizontal and vertical lines to make a grid.  Each loop may evaluate
its condition at most `fuel` times. -/
def Canvas.Grid [Add F] [Sub F] [Div F] [OfNat F 2] [OfNat F 0] [LT F]
    [DecidableRel (fun a b : F => a < b)] [LE F] [DecidableRel (fun a b : F => a ≤ b)]
    (fuel : Nat) (c : Canvas F)
    (width height size interval : F) (color : RGBA) : Option (Canvas F) :=
  match Canvas.gridHLoop width height size interval color fuel c 0 with
  | none => none
  | some c1 => Canvas.gridVLoop width height size interval color fuel c1 0

/-- The loop variable of either loop of `Grid` after `k` passes: it starts at 0
(`for y = 0`) and `step` is added after every pass (`y += height / interval`). -/
def gridVar [Add F] [OfNat F 0] (step : F) : Nat → F
  | 0 => 0
  | k + 1 => gridVar step k + step

/-- `CenterImage` places a named image centered at (x, y), scaled using the specified
dimensions (w, h).  `osOpen` is `os.Open` and `imageDecode` is `image.Decode`. -/
def Canvas.CenterImage [Add F] [Sub F] [Mul F] [Div F] [OfNat F 2] [OfNat F 100]
    [IntCast F] [LT F] [DecidableRel (fun a b : F => a < b)] (osOpen : String → Except String File)
    (imageDecode : File → Except String Image) (c : Canvas F) (name : String) (x y : F)
    (w h : Int) (scale : F) : Canvas F :=
  match osOpen name with
  | Except.error _ => c
  | Except.ok r =>
    match imageDecode r with
    | Except.error _ => c
    | Except.ok im =>
      let sc : F := scale / 100
      let imw : F := (w : F) * sc
      let imh : F := (h : F) * sc
      let dims : F × F :=
        if w = 0 ∧ h = 0 then
          let b := im.Bounds
          ((b.Max.X : F) * sc, (b.Max.Y : F) * sc)
        else (imw, imh)
      let imw := dims.1
      let imh := dims.2
      let x := x - (imw / 2)
      let y := y - (imh / 2)
      let c := c.add (Op.ImageOp im)
      c.add (Op.PaintOp (f32Rect x y (x + imw) (y + imh)))

end Methods

/-! ## Sample inputs -/

/-- Opaque black, the colour used in the sample inputs. -/
def black : RGBA := ⟨0, 0, 0, 255⟩

/-- A decoded image of 200 by 100 pixels whose bounds do not start at the origin, as
`image.Decode` returns for a GIF whose first frame is placed at (10, 10) of its logical
screen: `Bounds()` is `(10,10)-(210,110)`. -/
def offsetFrame : Image :=
  { Bounds := { Min := { X := 10, Y := 10 }, Max := { X := 210, Y := 110 } },
    Pix := List.replicate (200 * 100) black }

/-- An `os.Open` that finds no file. -/
def openNothing : String → Except String File :=
  fun name => Except.error ("open " ++ name ++ ": no such file or directory")

/-- An `os.Open` that opens every name as an empty file. -/
def openEmpty : String → Except String File :=
  fun _ => Except.ok { bytes := [] }

/-- An `image.Decode` that recognises no format. -/
def decodeNothing : File → Except String Image :=
  fun _ => Except.error "image: unknown format"

/-- An `image.Decode` that decodes every file to `offsetFrame`. -/
def decodeOffsetFrame : File → Except String Image :=
  fun _ => Except.ok offsetFrame

/-! ## Operation lists of the single-call methods -/

section OpLists

variable {F : Type}

theorem add_Ops (c : Canvas F) (o : Op F) : (c.add o).Ops = c.Ops ++ [o] := rfl

theorem textops_Ops [Sub F] [Div F] [OfNat F 2] (c : Canvas F) (x y size : F)
    (alignment : Alignment) (s : String) (color : RGBA) :
    (c.textops x y size alignment s color).Ops =
      c.Ops ++ [Op.StackPush,
        Op.TransformOffset
          { X := (match alignment with
              | Alignment.End => x - c.Width
              | Alignment.Middle => x - c.Width / 2
              | Alignment.Start => x),
            Y := y },
        Op.LabelLayout size s color alignment, Op.StackPop] := by
  simp [Canvas.textops, Canvas.add]

theorem Rect_Ops [Add F] [LT F] [DecidableRel (fun a b : F => a < b)] (c : Canvas F)
    (x y w h : F) (color : RGBA) :
    (c.Rect x y w h color).Ops =
      c.Ops ++ [Op.ColorOp color, Op.PaintOp (f32Rect x (y + h) (x + w) y)] := by
  simp [Canvas.Rect, Canvas.add]

theorem CenterRect_Ops [Add F] [Sub F] [Div F] [OfNat F 2] [LT F]
    [DecidableRel (fun a b : F => a < b)] (c : Canvas F) (x y w h : F)
    (color : RGBA) :
    (c.CenterRect x y w h color).Ops =
      c.Ops ++ [Op.ColorOp color,
        Op.PaintOp (f32Rect (x - w / 2) (y + h / 2) (x + w / 2) (y - h / 2))] := by
  simp [Canvas.CenterRect, Canvas.add]

theorem Rect_grows [Add F] [LT F] [DecidableRel (fun a b : F => a < b)] (c : Canvas F)
    (x y w h : F) (color : RGBA) :
    c.Ops <+: (c.Rect x y w h color).Ops := by
  rw [Rect_Ops]
  exact List.prefix_append _ _

theorem textops_grows [Sub F] [Div F] [OfNat F 2] (c : Canvas F) (x y size : F)
    (alignment : Alignment) (s : String) (color : RGBA) :
    c.Ops <+: (c.textops x y size alignment s color).Ops := by
  rw [textops_Ops]
  exact List.prefix_append _ _

theorem CenterRect_grows [Add F] [Sub F] [Div F] [OfNat F 2] [LT F]
    [DecidableRel (fun a b : F => a < b)] (c : Canvas F) (x y w h : F)
    (color : RGBA) : c.Ops <+: (c.CenterRect x y w h color).Ops := by
  rw [CenterRect_Ops]
  exact List.prefix_append _ _

end OpLists

/-! ## Well-formed bounds of the rectangles the methods paint -/

theorem f32Rect_eq_min_max {F : Type} [LinearOrder F] (x0 y0 x1 y1 : F) :
    f32Rect x0 y0 x1 y1 =
      { Min := { X := min x0 x1, Y := min y0 y1 },
        Max := { X := max x0 x1, Y := max y0 y1 } } := by
  unfold f32Rect
  rcases lt_or_le x1 x0 with hx | hx <;> rcases lt_or_le y1 y0 with hy | hy
  · simp [hx, hy, min_eq_right hx.le, max_eq_left hx.le, min_eq_right hy.le,
      max_eq_left hy.le]
  · simp [hx, not_lt.mpr hy, min_eq_right hx.le, max_eq_left hx.le, min_eq_left hy,
      max_eq_right hy]
  · simp [not_lt.mpr hx, hy, min_eq_left hx, max_eq_right hx, min_eq_right hy.le,
      max_eq_left hy.le]
  · simp [not_lt.mpr hx, not_lt.mpr hy, min_eq_left hx, max_eq_right hx, min_eq_left hy,
      max_eq_right hy]

theorem f32Rect_of_le {F : Type} [LinearOrder F] (x0 y0 x1 y1 : F) (hx : x0 ≤ x1)
    (hy : y0 ≤ y1) :
    f32Rect x0 y0 x1 y1 = { Min := { X := x0, Y := y0 }, Max := { X := x1, Y := y1 } } := by
  rw [f32Rect_eq_min_max, min_eq_left hx, min_eq_left hy, max_eq_right hx, max_eq_right hy]

theorem Canon_of_le {F : Type} [LinearOrder F] (r : Rectangle F) (hx : r.Min.X ≤ r.Max.X)
    (hy : r.Min.Y ≤ r.Max.Y) : r.Canon = r := by
  unfold Rectangle.Canon
  simp [not_lt.mpr hx, not_lt.mpr hy]

theorem Canon_f32Rect {F : Type} [LinearOrder F] (x0 y0 x1 y1 : F) :
    (f32Rect x0 y0 x1 y1).Canon =
      { Min := { X := min x0 x1, Y := min y0 y1 },
        Max := { X := max x0 x1, Y := max y0 y1 } } := by
  rw [f32Rect_eq_min_max]
  exact Canon_of_le _ min_le_max min_le_max

theorem painted_add_PaintOp (c : Canvas ℚ) (r : Rectangle ℚ) :
    (c.add (Op.PaintOp r)).painted = c.painted ++ [r.Canon] := by
  simp [Canvas.painted, Canvas.add, List.filterMap_append, Op.paintBounds]

theorem painted_add_ColorOp (c : Canvas ℚ) (color : RGBA) :
    (c.add (Op.ColorOp color)).painted = c.painted := by
  simp [Canvas.painted, Canvas.add, List.filterMap_append, Op.paintBounds]

theorem Rect_painted (c : Canvas ℚ) (x y w h : ℚ) (color : RGBA) :
    (c.Rect x y w h color).painted = c.painted ++ [(f32Rect x (y + h) (x + w) y).Canon] := by
  unfold Canvas.Rect
  simp only [painted_add_PaintOp, painted_add_ColorOp]

theorem CenterRect_painted (c : Canvas ℚ) (x y w h : ℚ) (color : RGBA) :
    (c.CenterRect x y w h color).painted =
      c.painted ++ [(f32Rect (x - w / 2) (y + h / 2) (x + w / 2) (y - h / 2)).Canon] := by
  unfold Canvas.CenterRect
  simp only [painted_add_PaintOp, painted_add_ColorOp]

/-! ## Text placement -/

/-- C4: for every canvas and every x, y, size, string and colour, the operations appended
by `Text`, `TextMid` and `TextEnd` are: push the transform stack, offset the frame by
`(offset, y)`, lay out the label, pop the stack, where `offset` is `x` for start
alignment, `x - Width/2` for middle alignment and `x - Width` for end alignment.  `y` is
passed through unchanged, and neither the string nor the size occurs in the offset.
Holds for any coordinate arithmetic. -/
theorem text_offsets {F : Type} [Sub F] [Div F] [OfNat F 2] (c : Canvas F) (x y size : F)
    (s : String) (color : RGBA) :
    (c.Text x y size s color).Ops =
        c.Ops ++ [Op.StackPush, Op.TransformOffset { X := x, Y := y },
          Op.LabelLayout size s color Alignment.Start, Op.StackPop]
      ∧ (c.TextMid x y size s color).Ops =
        c.Ops ++ [Op.StackPush, Op.TransformOffset { X := x - c.Width / 2, Y := y },
          Op.LabelLayout size s color Alignment.Middle, Op.StackPop]
      ∧ (c.TextEnd x y size s color).Ops =
        c.Ops ++ [Op.StackPush, Op.TransformOffset { X := x - c.Width, Y := y },
          Op.LabelLayout size s color Alignment.End, Op.StackPop] := by
  refine ⟨?_, ?_, ?_⟩
  · exact textops_Ops c x y size Alignment.Start s color
  · exact textops_Ops c x y size Alignment.Middle s color
  · exact textops_Ops c x y size Alignment.End s color

/-! ## Rectangles and lines -/

/-- C8: for every x, y, w, h and colour, `Rect` appends exactly two operations, in this
order: set the fill colour to the given colour, then paint the rectangle
`f32.Rect(x, y+h, x+w, y)`, the well-formed rectangle with corners `(x, y+h)` and
`(x+w, y)`: it spans the region between `x` and `x+w` horizontally and between `y` and
`y+h` vertically, and when `x <= x+w` and `y <= y+h` its minimum corner is `(x, y)` and
its maximum corner `(x+w, y+h)`.  Holds for any linearly ordered coordinate type, with
the sums as the code computes them. -/
theorem Rect_appends_color_then_paint {F : Type} [LinearOrder F] [Add F] (c : Canvas F)
    (x y w h : F) (color : RGBA) :
    (c.Rect x y w h color).Ops =
        c.Ops ++ [Op.ColorOp color, Op.PaintOp (f32Rect x (y + h) (x + w) y)]
      ∧ f32Rect x (y + h) (x + w) y =
          { Min := { X := min x (x + w), Y := min y (y + h) },
            Max := { X := max x (x + w), Y := max y (y + h) } }
      ∧ (x ≤ x + w → y ≤ y + h →
          f32Rect x (y + h) (x + w) y =
            { Min := { X := x, Y := y }, Max := { X := x + w, Y := y + h } }) := by
  have hmm : f32Rect x (y + h) (x + w) y =
      { Min := { X := min x (x + w), Y := min y (y + h) },
        Max := { X := max x (x + w), Y := max y (y + h) } } := by
    rw [f32Rect_eq_min_max, min_comm (y + h) y, max_comm (y + h) y]
  refine ⟨Rect_Ops c x y w h color, hmm, fun hx hy => ?_⟩
  rw [hmm, min_eq_left hx, min_eq_left hy, max_eq_right hx, max_eq_right hy]

/-- C8 at `Rect(10, 20, 30, 40)` on an empty canvas: the fill colour, then the rectangle
from `(10, 20)` to `(40, 60)`, which is 30 wide and 40 high. -/
theorem Rect_appends_color_then_paint_witness :
    ((NewCanvas (100 : ℚ) 100).Rect 10 20 30 40 black).Ops =
        [Op.ColorOp black,
          Op.PaintOp { Min := { X := (10 : ℚ), Y := 20 }, Max := { X := 40, Y := 60 } }]
      ∧ (f32Rect (10 : ℚ) (20 + 40) (10 + 30) 20).Dx = 30
      ∧ (f32Rect (10 : ℚ) (20 + 40) (10 + 30) 20).Dy = 40 := by
  have h := Rect_appends_color_then_paint (NewCanvas (100 : ℚ) 100) 10 20 30 40 black
  refine ⟨?_, ?_, ?_⟩
  · rw [h.1, h.2.2 (by norm_num) (by norm_num)]
    norm_num [NewCanvas]
  · rw [h.2.2 (by norm_num) (by norm_num)]
    norm_num [Rectangle.Dx]
  · rw [h.2.2 (by norm_num) (by norm_num)]
    norm_num [Rectangle.Dy]

/-- C7: for every x, y, w, h and colour, `VLine(x, y, w, h, color)` is
`Rect(x - w/2, y, w, h, color)` and `HLine(x, y, w, h, color)` is
`Rect(x, y - h/2, w, h, color)`; so a vertical line paints from `x - w/2` to `x + w/2`
(over `y .. y+h`) and a horizontal line paints from `y - h/2` to `y + h/2`
(over `x .. x+w`). -/
theorem VLine_HLine_are_Rect (c : Canvas ℚ) (x y w h : ℚ) (color : RGBA) :
    c.VLine x y w h color = c.Rect (x - w / 2) y w h color
      ∧ c.HLine x y w h color = c.Rect x (y - h / 2) w h color
      ∧ (c.VLine x y w h color).Ops =
        c.Ops ++ [Op.ColorOp color, Op.PaintOp (f32Rect (x - w / 2) (y + h) (x + w / 2) y)]
      ∧ (c.HLine x y w h color).Ops =
        c.Ops ++ [Op.ColorOp color,
          Op.PaintOp (f32Rect x (y + h / 2) (x + w) (y - h / 2))] := by
  refine ⟨rfl, rfl, ?_, ?_⟩
  · unfold Canvas.VLine
    rw [Rect_Ops]
    have e : x - w / 2 + w = x + w / 2 := by ring
    rw [e]
  · unfold Canvas.HLine
    rw [Rect_Ops]
    have e : y - h / 2 + h = y + h / 2 := by ring
    rw [e]

/-- C1, refuted as stated: on an empty canvas, `Rect(0, 0, 2, 2)` paints the region
`0..2` by `0..2` while `CenterRect(0 + 2/2, 0 - 2/2, 2, 2)` paints `0..2` by `-2..0`. -/
theorem Rect_CenterRect_minus_differ :
    ((NewCanvas (100 : ℚ) 100).Rect 0 0 2 2 ⟨0, 0, 0, 255⟩).painted = [f32Rect 0 0 2 2]
      ∧ ((NewCanvas (100 : ℚ) 100).CenterRect (0 + 2 / 2) (0 - 2 / 2) 2 2
          ⟨0, 0, 0, 255⟩).painted = [f32Rect 0 (-2) 2 0]
      ∧ ((NewCanvas (100 : ℚ) 100).Rect 0 0 2 2 ⟨0, 0, 0, 255⟩).painted ≠
        ((NewCanvas (100 : ℚ) 100).CenterRect (0 + 2 / 2) (0 - 2 / 2) 2 2
          ⟨0, 0, 0, 255⟩).painted := by
  have h1 : ((NewCanvas (100 : ℚ) 100).Rect 0 0 2 2 ⟨0, 0, 0, 255⟩).painted
      = [f32Rect 0 0 2 2] := by
    rw [Rect_painted, Canon_f32Rect, f32Rect_of_le 0 0 2 2 (by norm_num) (by norm_num)]
    norm_num [Canvas.painted, NewCanvas]
  have h2 : ((NewCanvas (100 : ℚ) 100).CenterRect (0 + 2 / 2) (0 - 2 / 2) 2 2
      ⟨0, 0, 0, 255⟩).painted = [f32Rect 0 (-2) 2 0] := by
    rw [CenterRect_painted, Canon_f32Rect,
      f32Rect_of_le 0 (-2) 2 0 (by norm_num) (by norm_num)]
    norm_num [Canvas.painted, NewCanvas]
  refine ⟨h1, h2, ?_⟩
  rw [h1, h2, f32Rect_of_le 0 0 2 2 (by norm_num) (by norm_num),
    f32Rect_of_le 0 (-2) 2 0 (by norm_num) (by norm_num)]
  norm_num

/-- C1, amended: for every x, y, w, h and colour (coordinates as exact rationals),
`Rect(x, y, w, h, color)` and `CenterRect(x + w/2, y + h/2, w, h, color)` append the
same operations, so they paint the same rectangle; with `y - h/2` in place of
`y + h/2` the painted region is the same exactly when `h = 0`. -/
theorem Rect_eq_CenterRect_at_center (c : Canvas ℚ) (x y w h : ℚ) (color : RGBA) :
    c.Rect x y w h color = c.CenterRect (x + w / 2) (y + h / 2) w h color
      ∧ ((c.Rect x y w h color).painted =
          (c.CenterRect (x + w / 2) (y - h / 2) w h color).painted ↔ h = 0) := by
  constructor
  · unfold Canvas.Rect Canvas.CenterRect
    have e1 : x + w / 2 - w / 2 = x := by ring
    have e2 : y + h / 2 + h / 2 = y + h := by ring
    have e3 : x + w / 2 + w / 2 = x + w := by ring
    have e4 : y + h / 2 - h / 2 = y := by ring
    rw [e1, e2, e3, e4]
  · rw [Rect_painted, CenterRect_painted, Canon_f32Rect, Canon_f32Rect]
    have e1 : x + w / 2 - w / 2 = x := by ring
    have e2 : y - h / 2 + h / 2 = y := by ring
    have e3 : x + w / 2 + w / 2 = x + w := by ring
    have e4 : y - h / 2 - h / 2 = y - h := by ring
    rw [e1, e2, e3, e4]
    constructor
    · intro hp
      have hp1 := List.append_cancel_left hp
      simp only [List.cons.injEq, Rectangle.mk.injEq, Point.mk.injEq, and_true,
        true_and] at hp1
      obtain ⟨hmin, -⟩ := hp1
      rcases le_total 0 h with hh | hh
      · rw [min_eq_right (by linarith), min_eq_right (by linarith)] at hmin
        linarith
      · rw [min_eq_left (by linarith), min_eq_left (by linarith)] at hmin
        linarith
    · intro hh
      subst hh
      simp

/-! ## The loops of `Grid` -/

theorem exists_first_pass {F : Type} [Add F] [OfNat F 0] [LE F] (step bound : F)
    (h : ∃ N, ¬ gridVar step N ≤ bound) :
    ∃ N, (∀ k, k < N → gridVar step k ≤ bound) ∧ ¬ gridVar step N ≤ bound := by
  classical
  exact ⟨Nat.find h, fun k hk => not_not.mp (Nat.find_min h hk), Nat.find_spec h⟩

section GridLoops

variable {F : Type} [Add F] [Sub F] [Div F] [OfNat F 2] [OfNat F 0] [LT F]
  [DecidableRel (fun a b : F => a < b)] [LE F] [DecidableRel (fun a b : F => a ≤ b)]

theorem gridHLoop_exit (width height size interval : F) (color : RGBA) (fuel : Nat)
    (c : Canvas F) (y : F) (hy : ¬ y ≤ height) :
    Canvas.gridHLoop width height size interval color (fuel + 1) c y = some c := by
  simp [Canvas.gridHLoop, hy]

theorem gridHLoop_step (width height size interval : F) (color : RGBA) (fuel : Nat)
    (c : Canvas F) (y : F) (hy : y ≤ height) :
    Canvas.gridHLoop width height size interval color (fuel + 1) c y =
      Canvas.gridHLoop width height size interval color fuel
        (c.HLine 0 y width size color) (y + height / interval) := by
  simp [Canvas.gridHLoop, hy]

theorem gridVLoop_exit (width height size interval : F) (color : RGBA) (fuel : Nat)
    (c : Canvas F) (x : F) (hx : ¬ x ≤ width) :
    Canvas.gridVLoop width height size interval color (fuel + 1) c x = some c := by
  simp [Canvas.gridVLoop, hx]

theorem gridVLoop_step (width height size interval : F) (color : RGBA) (fuel : Nat)
    (c : Canvas F) (x : F) (hx : x ≤ width) :
    Canvas.gridVLoop width height size interval color (fuel + 1) c x =
      Canvas.gridVLoop width height size interval color fuel
        (c.VLine x 0 size height color) (x + width / interval) := by
  simp [Canvas.gridVLoop, hx]

theorem gridHLoop_grows (width height size interval : F) (color : RGBA) :
    ∀ (fuel : Nat) (c : Canvas F) (y : F) (c1 : Canvas F),
      Canvas.gridHLoop width height size interval color fuel c y = some c1 →
        c.Ops <+: c1.Ops := by
  intro fuel
  induction fuel with
  | zero =>
    intro c y c1 hrun
    simp [Canvas.gridHLoop] at hrun
  | succ fuel ih =>
    intro c y c1 hrun
    by_cases hy : y ≤ height
    · rw [gridHLoop_step width height size interval color fuel c y hy] at hrun
      exact (Rect_grows c _ _ _ _ color).trans (ih _ _ _ hrun)
    · rw [gridHLoop_exit width height size interval color fuel c y hy] at hrun
      cases hrun
      exact List.prefix_refl _

theorem gridVLoop_grows (width height size interval : F) (color : RGBA) :
    ∀ (fuel : Nat) (c : Canvas F) (x : F) (c1 : Canvas F),
      Canvas.gridVLoop width height size interval color fuel c x = some c1 →
        c.Ops <+: c1.Ops := by
  intro fuel
  induction fuel with
  | zero =>
    intro c x c1 hrun
    simp [Canvas.gridVLoop] at hrun
  | succ fuel ih =>
    intro c x c1 hrun
    by_cases hx : x ≤ width
    · rw [gridVLoop_step width height size interval color fuel c x hx] at hrun
      exact (Rect_grows c _ _ _ _ color).trans (ih _ _ _ hrun)
    · rw [gridVLoop_exit width height size interval color fuel c x hx] at hrun
      cases hrun
      exact List.prefix_refl _

theorem Grid_grows (fuel : Nat) (c : Canvas F) (width height size interval : F)
    (color : RGBA) (c2 : Canvas F)
    (hrun : c.Grid fuel width height size interval color = some c2) :
    c.Ops <+: c2.Ops := by
  unfold Canvas.Grid at hrun
  cases hH : Canvas.gridHLoop width height size interval color fuel c 0 with
  | none => simp [hH] at hrun
  | some c1 =>
    simp only [hH] at hrun
    exact (gridHLoop_grows width height size interval color fuel c 0 c1 hH).trans
      (gridVLoop_grows width height size interval color fuel c1 0 c2 hrun)

/-! ### The loops against the values of their variables -/

theorem gridHLoop_run (width height size interval : F) (color : RGBA) :
    ∀ (r k fuel : ℕ) (c : Canvas F),
      (∀ j, j < r → gridVar (height / interval) (k + j) ≤ height) →
      ¬ gridVar (height / interval) (k + r) ≤ height → r + 1 ≤ fuel →
      Canvas.gridHLoop width height size interval color fuel c
          (gridVar (height / interval) k) =
        some ((List.range' k r).foldl
          (fun c j => c.HLine 0 (gridVar (height / interval) j) width size color) c) := by
  intro r
  induction r with
  | zero =>
    intro k fuel c _ hpast hfuel
    obtain ⟨fuel, rfl⟩ : ∃ f, fuel = f + 1 := ⟨fuel - 1, by omega⟩
    exact gridHLoop_exit width height size interval color fuel c _ hpast
  | succ r ih =>
    intro k fuel c hin hpast hfuel
    obtain ⟨fuel, rfl⟩ : ∃ f, fuel = f + 1 := ⟨fuel - 1, by omega⟩
    have h0 : gridVar (height / interval) k ≤ height := hin 0 (by omega)
    rw [gridHLoop_step width height size interval color fuel c _ h0]
    have hin1 : ∀ j, j < r → gridVar (height / interval) (k + 1 + j) ≤ height := by
      intro j hj
      have hj1 := hin (j + 1) (by omega)
      rwa [show k + (j + 1) = k + 1 + j by omega] at hj1
    have hpast1 : ¬ gridVar (height / interval) (k + 1 + r) ≤ height := by
      rwa [show k + (r + 1) = k + 1 + r by omega] at hpast
    exact ih (k + 1) fuel _ hin1 hpast1 (by omega)

theorem gridVLoop_run (width height size interval : F) (color : RGBA) :
    ∀ (r k fuel : ℕ) (c : Canvas F),
      (∀ j, j < r → gridVar (width / interval) (k + j) ≤ width) →
      ¬ gridVar (width / interval) (k + r) ≤ width → r + 1 ≤ fuel →
      Canvas.gridVLoop width height size interval color fuel c
          (gridVar (width / interval) k) =
        some ((List.range' k r).foldl
          (fun c j => c.VLine (gridVar (width / interval) j) 0 size height color) c) := by
  intro r
  induction r with
  | zero =>
    intro k fuel c _ hpast hfuel
    obtain ⟨fuel, rfl⟩ : ∃ f, fuel = f + 1 := ⟨fuel - 1, by omega⟩
    exact gridVLoop_exit width height size interval color fuel c _ hpast
  | succ r ih =>
    intro k fuel c hin hpast hfuel
    obtain ⟨fuel, rfl⟩ : ∃ f, fuel = f + 1 := ⟨fuel - 1, by omega⟩
    have h0 : gridVar (width / interval) k ≤ width := hin 0 (by omega)
    rw [gridVLoop_step width height size interval color fuel c _ h0]
    have hin1 : ∀ j, j < r → gridVar (width / interval) (k + 1 + j) ≤ width := by
      intro j hj
      have hj1 := hin (j + 1) (by omega)
      rwa [show k + (j + 1) = k + 1 + j by omega] at hj1
    have hpast1 : ¬ gridVar (width / interval) (k + 1 + r) ≤ width := by
      rwa [show k + (r + 1) = k + 1 + r by omega] at hpast
    exact ih (k + 1) fuel _ hin1 hpast1 (by omega)

theorem gridHLoop_some_passes (width height size interval : F) (color : RGBA) :
    ∀ (fuel k : ℕ) (c c1 : Canvas F),
      Canvas.gridHLoop width height size interval color fuel c
          (gridVar (height / interval) k) = some c1 →
        ∃ N, ¬ gridVar (height / interval) N ≤ height := by
  intro fuel
  induction fuel with
  | zero =>
    intro k c c1 hrun
    simp [Canvas.gridHLoop] at hrun
  | succ fuel ih =>
    intro k c c1 hrun
    by_cases hle : gridVar (height / interval) k ≤ height
    · rw [gridHLoop_step width height size interval color fuel c _ hle] at hrun
      exact ih (k + 1) _ c1 hrun
    · exact ⟨k, hle⟩

theorem gridVLoop_some_passes (width height size interval : F) (color : RGBA) :
    ∀ (fuel k : ℕ) (c c1 : Canvas F),
      Canvas.gridVLoop width height size interval color fuel c
          (gridVar (width / interval) k) = some c1 →
        ∃ N, ¬ gridVar (width / interval) N ≤ width := by
  intro fuel
  induction fuel with
  | zero =>
    intro k c c1 hrun
    simp [Canvas.gridVLoop] at hrun
  | succ fuel ih =>
    intro k c c1 hrun
    by_cases hle : gridVar (width / interval) k ≤ width
    · rw [gridVLoop_step width height size interval color fuel c _ hle] at hrun
      exact ih (k + 1) _ c1 hrun
    · exact ⟨k, hle⟩

theorem gridHLoop_stuck (width height size interval : F) (color : RGBA)
    (h0 : (0 : F) ≤ height) (hs : (0 : F) + height / interval = 0) :
    ∀ (fuel : ℕ) (c : Canvas F),
      Canvas.gridHLoop width height size interval color fuel c 0 = none := by
  intro fuel
  induction fuel with
  | zero =>
    intro c
    rfl
  | succ fuel ih =>
    intro c
    rw [gridHLoop_step width height size interval color fuel c 0 h0, hs]
    exact ih _

theorem gridVLoop_stuck (width height size interval : F) (color : RGBA)
    (h0 : (0 : F) ≤ width) (hs : (0 : F) + width / interval = 0) :
    ∀ (fuel : ℕ) (c : Canvas F),
      Canvas.gridVLoop width height size interval color fuel c 0 = none := by
  intro fuel
  induction fuel with
  | zero =>
    intro c
    rfl
  | succ fuel ih =>
    intro c
    rw [gridVLoop_step width height size interval color fuel c 0 h0, hs]
    exact ih _

theorem Grid_run (c : Canvas F) (width height size interval : F) (color : RGBA)
    (N M fuel : ℕ) (hN : ∀ k, k < N → gridVar (height / interval) k ≤ height)
    (hNpast : ¬ gridVar (height / interval) N ≤ height)
    (hM : ∀ k, k < M → gridVar (width / interval) k ≤ width)
    (hMpast : ¬ gridVar (width / interval) M ≤ width)
    (hfN : N + 1 ≤ fuel) (hfM : M + 1 ≤ fuel) :
    c.Grid fuel width height size interval color =
      some ((List.range M).foldl
        (fun c k => c.VLine (gridVar (width / interval) k) 0 size height color)
        ((List.range N).foldl
          (fun c k => c.HLine 0 (gridVar (height / interval) k) width size color) c)) := by
  have hH := gridHLoop_run width height size interval color N 0 fuel c
    (fun j hj => by rw [Nat.zero_add]; exact hN j hj) (by rw [Nat.zero_add]; exact hNpast)
    hfN
  have hV := fun c1 => gridVLoop_run width height size interval color M 0 fuel c1
    (fun j hj => by rw [Nat.zero_add]; exact hM j hj) (by rw [Nat.zero_add]; exact hMpast)
    hfM
  unfold Canvas.Grid
  have e0 : ∀ step : F, gridVar step 0 = 0 := fun _ => rfl
  rw [e0] at hH hV
  rw [hH]
  simp only
  rw [hV, List.range_eq_range', List.range_eq_range']

theorem Grid_returns_iff (c : Canvas F) (width height size interval : F) (color : RGBA) :
    (∃ fuel c2, c.Grid fuel width height size interval color = some c2) ↔
      (∃ N, ¬ gridVar (height / interval) N ≤ height)
        ∧ (∃ M, ¬ gridVar (width / interval) M ≤ width) := by
  constructor
  · rintro ⟨fuel, c2, hrun⟩
    unfold Canvas.Grid at hrun
    cases hH : Canvas.gridHLoop width height size interval color fuel c 0 with
    | none => simp [hH] at hrun
    | some c1 =>
      simp only [hH] at hrun
      exact ⟨gridHLoop_some_passes width height size interval color fuel 0 c c1 hH,
        gridVLoop_some_passes width height size interval color fuel 0 c1 c2 hrun⟩
  · rintro ⟨hN, hM⟩
    obtain ⟨N, hN1, hN2⟩ := exists_first_pass _ _ hN
    obtain ⟨M, hM1, hM2⟩ := exists_first_pass _ _ hM
    exact ⟨N + M + 1, _, Grid_run c width height size interval color N M (N + M + 1)
      hN1 hN2 hM1 hM2 (by omega) (by omega)⟩

theorem Grid_stuck (c : Canvas F) (width height size interval : F) (color : RGBA)
    (hz : ((0 : F) ≤ height ∧ (0 : F) + height / interval = 0)
      ∨ ((0 : F) ≤ width ∧ (0 : F) + width / interval = 0)) (fuel : ℕ) :
    c.Grid fuel width height size interval color = none := by
  unfold Canvas.Grid
  rcases hz with ⟨h0, hs⟩ | ⟨h0, hs⟩
  · rw [gridHLoop_stuck width height size interval color h0 hs fuel c]
  · cases Canvas.gridHLoop width height size interval color fuel c 0 with
    | none => rfl
    | some c1 => exact gridVLoop_stuck width height size interval color h0 hs fuel c1

end GridLoops

/-! ### Grid lines at `k * height / n` and `k * width / n` -/

theorem gridHLoop_lines (width height size : ℚ) (n : ℕ) (color : RGBA) (hh : 0 < height)
    (hn : 0 < n) :
    ∀ (r k fuel : ℕ) (c : Canvas ℚ), k + r = n + 1 → r + 1 ≤ fuel →
      Canvas.gridHLoop width height size (n : ℚ) color fuel c ((k : ℚ) * height / n) =
        some ((List.range' k r).foldl
          (fun c j => c.HLine 0 ((j : ℚ) * height / n) width size color) c) := by
  have hn0 : (0 : ℚ) < n := by exact_mod_cast hn
  intro r
  induction r with
  | zero =>
    intro k fuel c hk hfuel
    obtain ⟨fuel, rfl⟩ : ∃ f, fuel = f + 1 := ⟨fuel - 1, by omega⟩
    have hk1 : k = n + 1 := by omega
    subst hk1
    rw [gridHLoop_exit]
    · simp
    · rw [not_le, lt_div_iff₀ hn0]
      push_cast
      nlinarith
  | succ r ih =>
    intro k fuel c hk hfuel
    obtain ⟨fuel, rfl⟩ : ∃ f, fuel = f + 1 := ⟨fuel - 1, by omega⟩
    have hkn : (k : ℚ) ≤ n := by exact_mod_cast (show k ≤ n by omega)
    rw [gridHLoop_step]
    · have e : (k : ℚ) * height / n + height / n = ((k + 1 : ℕ) : ℚ) * height / n := by
        push_cast
        ring
      rw [e, ih (k + 1) fuel _ (by omega) (by omega)]
      simp [List.range'_succ]
    · rw [div_le_iff₀ hn0]
      nlinarith

theorem gridVLoop_lines (width height size : ℚ) (n : ℕ) (color : RGBA) (hw : 0 < width)
    (hn : 0 < n) :
    ∀ (r k fuel : ℕ) (c : Canvas ℚ), k + r = n + 1 → r + 1 ≤ fuel →
      Canvas.gridVLoop width height size (n : ℚ) color fuel c ((k : ℚ) * width / n) =
        some ((List.range' k r).foldl
          (fun c j => c.VLine ((j : ℚ) * width / n) 0 size height color) c) := by
  have hn0 : (0 : ℚ) < n := by exact_mod_cast hn
  intro r
  induction r with
  | zero =>
    intro k fuel c hk hfuel
    obtain ⟨fuel, rfl⟩ : ∃ f, fuel = f + 1 := ⟨fuel - 1, by omega⟩
    have hk1 : k = n + 1 := by omega
    subst hk1
    rw [gridVLoop_exit]
    · simp
    · rw [not_le, lt_div_iff₀ hn0]
      push_cast
      nlinarith
  | succ r ih =>
    intro k fuel c hk hfuel
    obtain ⟨fuel, rfl⟩ : ∃ f, fuel = f + 1 := ⟨fuel - 1, by omega⟩
    have hkn : (k : ℚ) ≤ n := by exact_mod_cast (show k ≤ n by omega)
    rw [gridVLoop_step]
    · have e : (k : ℚ) * width / n + width / n = ((k + 1 : ℕ) : ℚ) * width / n := by
        push_cast
        ring
      rw [e, ih (k + 1) fuel _ (by omega) (by omega)]
      simp [List.range'_succ]
    · rw [div_le_iff₀ hn0]
      nlinarith

theorem Grid_eq_foldl (c : Canvas ℚ) (width height size : ℚ) (n : ℕ) (color : RGBA)
    (fuel : ℕ) (hw : 0 < width) (hh : 0 < height) (hn : 0 < n) (hfuel : n + 2 ≤ fuel) :
    c.Grid fuel width height size (n : ℚ) color =
      some ((List.range (n + 1)).foldl
        (fun c k => c.VLine ((k : ℚ) * width / n) 0 size height color)
        ((List.range (n + 1)).foldl
          (fun c k => c.HLine 0 ((k : ℚ) * height / n) width size color) c)) := by
  have hH := gridHLoop_lines width height size n color hh hn (n + 1) 0 fuel c (by omega)
    (by omega)
  have hV := gridVLoop_lines width height size n color hw hn (n + 1) 0 fuel
  simp only [Nat.cast_zero, zero_mul, zero_div] at hH hV
  unfold Canvas.Grid
  rw [hH]
  simp only
  rw [hV _ (by omega) (by omega), List.range_eq_range']

/-- C2: for every positive width and height and every positive integer interval count
`n` (coordinates as exact rationals), `Grid(width, height, size, n, color)` returns, once
each loop may test its condition `n + 2` times, and what it has done is `n + 1` calls of
`HLine` followed by `n + 1` calls of `VLine`: for `k = 0, ..., n` in order
`HLine(0, k*height/n, width, size, color)`, then for `k = 0, ..., n` in order
`VLine(k*width/n, 0, size, height, color)`.  The first line of each run is at 0, the last
at `height`, respectively `width`. -/
theorem Grid_lines (c : Canvas ℚ) (width height size : ℚ) (n : ℕ) (color : RGBA)
    (fuel : ℕ) (hw : 0 < width) (hh : 0 < height) (hn : 0 < n) (hfuel : n + 2 ≤ fuel) :
    c.Grid fuel width height size (n : ℚ) color =
        some ((List.range (n + 1)).foldl
          (fun c k => c.VLine ((k : ℚ) * width / n) 0 size height color)
          ((List.range (n + 1)).foldl
            (fun c k => c.HLine 0 ((k : ℚ) * height / n) width size color) c))
      ∧ (List.range (n + 1)).length = n + 1
      ∧ ((0 : ℕ) : ℚ) * height / n = 0 ∧ (n : ℚ) * height / n = height
      ∧ ((0 : ℕ) : ℚ) * width / n = 0 ∧ (n : ℚ) * width / n = width := by
  have hn0 : (n : ℚ) ≠ 0 := by exact_mod_cast hn.ne'
  refine ⟨Grid_eq_foldl c width height size n color fuel hw hh hn hfuel, by simp, by simp,
    ?_, by simp, ?_⟩
  · field_simp
  · field_simp

/-- C2 at width = height = 100 and n = 10: 11 horizontal lines, then 11 vertical lines,
at the steps `k * 100 / 10` for `k = 0, ..., 10`. -/
theorem Grid_lines_witness :
    (0 : ℚ) < 100 ∧ 0 < 10 ∧ 10 + 2 ≤ 12
      ∧ ((NewCanvas (100 : ℚ) 100).Grid 12 100 100 1 ((10 : ℕ) : ℚ) black =
          some ((List.range (10 + 1)).foldl
            (fun c k => c.VLine ((k : ℚ) * 100 / (10 : ℕ)) 0 1 100 black)
            ((List.range (10 + 1)).foldl
              (fun c k => c.HLine 0 ((k : ℚ) * 100 / (10 : ℕ)) 100 1 black)
              (NewCanvas (100 : ℚ) 100)))
        ∧ (List.range (10 + 1)).length = 10 + 1
        ∧ ((0 : ℕ) : ℚ) * 100 / (10 : ℕ) = 0 ∧ ((10 : ℕ) : ℚ) * 100 / (10 : ℕ) = 100
        ∧ ((0 : ℕ) : ℚ) * 100 / (10 : ℕ) = 0 ∧ ((10 : ℕ) : ℚ) * 100 / (10 : ℕ) = 100) :=
  ⟨by norm_num, by norm_num, by norm_num,
    Grid_lines (NewCanvas (100 : ℚ) 100) 100 100 1 10 black 12 (by norm_num) (by norm_num)
      (by norm_num) (by norm_num)⟩

/-! ### Termination of the loops -/

theorem gridHLoop_halts_within (width height size interval : ℚ) (color : RGBA) :
    ∀ (N : ℕ) (c : Canvas ℚ) (y : ℚ), height < y + N * (height / interval) →
      ∃ c1, ∀ fuel, N + 1 ≤ fuel →
        Canvas.gridHLoop width height size interval color fuel c y = some c1 := by
  intro N
  induction N with
  | zero =>
    intro c y hy
    refine ⟨c, fun fuel hfuel => ?_⟩
    obtain ⟨fuel, rfl⟩ : ∃ f, fuel = f + 1 := ⟨fuel - 1, by omega⟩
    exact gridHLoop_exit width height size interval color fuel c y
      (by simp only [Nat.cast_zero, zero_mul, add_zero] at hy; exact not_le.mpr hy)
  | succ N ih =>
    intro c y hy
    by_cases hle : y ≤ height
    · obtain ⟨c1, hc1⟩ := ih (c.HLine 0 y width size color) (y + height / interval)
        (by push_cast at hy; linarith)
      refine ⟨c1, fun fuel hfuel => ?_⟩
      obtain ⟨fuel, rfl⟩ : ∃ f, fuel = f + 1 := ⟨fuel - 1, by omega⟩
      rw [gridHLoop_step width height size interval color fuel c y hle]
      exact hc1 fuel (by omega)
    · refine ⟨c, fun fuel hfuel => ?_⟩
      obtain ⟨fuel, rfl⟩ : ∃ f, fuel = f + 1 := ⟨fuel - 1, by omega⟩
      exact gridHLoop_exit width height size interval color fuel c y hle

theorem gridVLoop_halts_within (width height size interval : ℚ) (color : RGBA) :
    ∀ (N : ℕ) (c : Canvas ℚ) (x : ℚ), width < x + N * (width / interval) →
      ∃ c1, ∀ fuel, N + 1 ≤ fuel →
        Canvas.gridVLoop width height size interval color fuel c x = some c1 := by
  intro N
  induction N with
  | zero =>
    intro c x hx
    refine ⟨c, fun fuel hfuel => ?_⟩
    obtain ⟨fuel, rfl⟩ : ∃ f, fuel = f + 1 := ⟨fuel - 1, by omega⟩
    exact gridVLoop_exit width height size interval color fuel c x
      (by simp only [Nat.cast_zero, zero_mul, add_zero] at hx; exact not_le.mpr hx)
  | succ N ih =>
    intro c x hx
    by_cases hle : x ≤ width
    · obtain ⟨c1, hc1⟩ := ih (c.VLine x 0 size height color) (x + width / interval)
        (by push_cast at hx; linarith)
      refine ⟨c1, fun fuel hfuel => ?_⟩
      obtain ⟨fuel, rfl⟩ : ∃ f, fuel = f + 1 := ⟨fuel - 1, by omega⟩
      rw [gridVLoop_step width height size interval color fuel c x hle]
      exact hc1 fuel (by omega)
    · refine ⟨c, fun fuel hfuel => ?_⟩
      obtain ⟨fuel, rfl⟩ : ∃ f, fuel = f + 1 := ⟨fuel - 1, by omega⟩
      exact gridVLoop_exit width height size interval color fuel c x hle

/-- The number of steps of size `d / interval` after which the loop variable has passed a
nonzero bound `d`: none when `d < 0`, more than `interval` of them when `0 < d`. -/
theorem exists_steps_past (d interval : ℚ) (hd : d ≠ 0) (hi : 0 < interval) :
    ∃ N : ℕ, d < 0 + N * (d / interval) := by
  rcases lt_or_gt_of_ne hd with hneg | hpos
  · exact ⟨0, by simpa using hneg⟩
  · obtain ⟨N, hN⟩ := exists_nat_gt interval
    refine ⟨N, ?_⟩
    have h1 : d = interval * (d / interval) := by field_simp
    have h2 : 0 < d / interval := div_pos hpos hi
    nlinarith

theorem Grid_halts (c : Canvas ℚ) (width height size interval : ℚ) (color : RGBA)
    (hi : 0 < interval) (hh : height ≠ 0) (hw : width ≠ 0) :
    ∃ N c2, ∀ fuel, N ≤ fuel → c.Grid fuel width height size interval color = some c2 := by
  obtain ⟨NH, hNH⟩ := exists_steps_past height interval hh hi
  obtain ⟨NV, hNV⟩ := exists_steps_past width interval hw hi
  obtain ⟨c1, hc1⟩ := gridHLoop_halts_within width height size interval color NH c 0 hNH
  obtain ⟨c2, hc2⟩ := gridVLoop_halts_within width height size interval color NV c1 0 hNV
  refine ⟨max NH NV + 1, c2, fun fuel hfuel => ?_⟩
  unfold Canvas.Grid
  rw [hc1 fuel (by omega)]
  exact hc2 fuel (by omega)

theorem gridHLoop_zero_height (width size interval : ℚ) (color : RGBA) :
    ∀ (fuel : ℕ) (c : Canvas ℚ) (y : ℚ), y ≤ 0 →
      Canvas.gridHLoop width 0 size interval color fuel c y = none := by
  intro fuel
  induction fuel with
  | zero =>
    intro c y _
    rfl
  | succ fuel ih =>
    intro c y hy
    rw [gridHLoop_step width 0 size interval color fuel c y hy]
    exact ih _ _ (by simpa using hy)

theorem gridVLoop_zero_width (height size interval : ℚ) (color : RGBA) :
    ∀ (fuel : ℕ) (c : Canvas ℚ) (x : ℚ), x ≤ 0 →
      Canvas.gridVLoop 0 height size interval color fuel c x = none := by
  intro fuel
  induction fuel with
  | zero =>
    intro c x _
    rfl
  | succ fuel ih =>
    intro c x hx
    rw [gridVLoop_step 0 height size interval color fuel c x hx]
    exact ih _ _ (by simpa using hx)

theorem Grid_runs_forever (c : Canvas ℚ) (width height size interval : ℚ) (color : RGBA)
    (hz : height = 0 ∨ width = 0) (fuel : ℕ) :
    c.Grid fuel width height size interval color = none := by
  unfold Canvas.Grid
  rcases hz with hz | hz
  · subst hz
    rw [gridHLoop_zero_height width size interval color fuel c 0 le_rfl]
  · subst hz
    cases Canvas.gridHLoop 0 height size interval color fuel c 0 with
    | none => rfl
    | some c1 => exact gridVLoop_zero_width height size interval color fuel c1 0 le_rfl

/-- C3, refuted as stated: with interval count 10 and height 0 the step of the first loop
is `0 / 10 = 0`, the loop variable stays at 0 and `0 <= 0` holds for ever: no amount of
fuel lets `Grid` return. -/
theorem Grid_zero_height_never_returns :
    (0 : ℚ) < 10
      ∧ ¬ ∃ (fuel : ℕ) (c2 : Canvas ℚ),
          (NewCanvas (100 : ℚ) 100).Grid fuel 100 0 1 10 black = some c2 := by
  refine ⟨by norm_num, ?_⟩
  rintro ⟨fuel, c2, hrun⟩
  rw [Grid_runs_forever _ 100 0 1 10 black (Or.inl rfl) fuel] at hrun
  cases hrun

/-- In exact arithmetic, for an interval count greater than zero: both loops of `Grid`
finish when the width and the height are both different from zero, and `Grid` never
returns when one of them is zero. -/
theorem Grid_halts_iff_nonzero (c : Canvas ℚ) (width height size interval : ℚ)
    (color : RGBA) (hi : 0 < interval) :
    (height ≠ 0 → width ≠ 0 →
        ∃ N c2, ∀ fuel, N ≤ fuel →
          c.Grid fuel width height size interval color = some c2)
      ∧ (height = 0 ∨ width = 0 →
          ∀ fuel, c.Grid fuel width height size interval color = none) :=
  ⟨fun hh hw => Grid_halts c width height size interval color hi hh hw,
    fun hz fuel => Grid_runs_forever c width height size interval color hz fuel⟩

/-- C3, amended: a positive interval count does not by itself make `Grid` terminate.
Each loop starts its variable at 0 and adds `height / interval` (respectively
`width / interval`) after every line.  For every width, height, line size and interval
count, `Grid` returns if and only if in each loop some value of the variable fails the
test `<= height` (respectively `<= width`); it has then made one line call for each
value before the first such one, finitely many, horizontal lines first.  When the
dimension is not below 0 and the first addition leaves the variable at 0, as for height
or width 0 with any positive interval count, `Grid` never returns.  Holds for any
coordinate arithmetic. -/
theorem Grid_returns_iff_vars_pass {F : Type} [Add F] [Sub F] [Div F] [OfNat F 2]
    [OfNat F 0] [LT F] [DecidableRel (fun a b : F => a < b)] [LE F]
    [DecidableRel (fun a b : F => a ≤ b)] (c : Canvas F) (width height size interval : F)
    (color : RGBA) :
    ((∃ fuel c2, c.Grid fuel width height size interval color = some c2) ↔
        (∃ N, ¬ gridVar (height / interval) N ≤ height)
          ∧ (∃ M, ¬ gridVar (width / interval) M ≤ width))
      ∧ (∀ N M : ℕ, (∀ k, k < N → gridVar (height / interval) k ≤ height) →
          ¬ gridVar (height / interval) N ≤ height →
          (∀ k, k < M → gridVar (width / interval) k ≤ width) →
          ¬ gridVar (width / interval) M ≤ width →
          ∀ fuel, N + 1 ≤ fuel → M + 1 ≤ fuel →
            c.Grid fuel width height size interval color =
              some ((List.range M).foldl
                (fun c k => c.VLine (gridVar (width / interval) k) 0 size height color)
                ((List.range N).foldl
                  (fun c k => c.HLine 0 (gridVar (height / interval) k) width size color)
                  c)))
      ∧ (((0 : F) ≤ height ∧ (0 : F) + height / interval = 0)
            ∨ ((0 : F) ≤ width ∧ (0 : F) + width / interval = 0) →
          ∀ fuel, c.Grid fuel width height size interval color = none) :=
  ⟨Grid_returns_iff c width height size interval color,
    fun N M hN hNpast hM hMpast fuel hfN hfM =>
      Grid_run c width height size interval color N M fuel hN hNpast hM hMpast hfN hfM,
    fun hz fuel => Grid_stuck c width height size interval color hz fuel⟩

/-- C3 amended, at concrete inputs: with width = height = 100 and interval count 2 the
variables take the values 0, 50, 100, 150, so `Grid` returns after three horizontal and
three vertical lines; with height 0 it does not return. -/
theorem Grid_returns_iff_vars_pass_witness :
    (NewCanvas (100 : ℚ) 100).Grid 4 100 100 1 2 black =
        some ((List.range 3).foldl
          (fun c k => c.VLine (gridVar ((100 : ℚ) / 2) k) 0 1 100 black)
          ((List.range 3).foldl
            (fun c k => c.HLine 0 (gridVar ((100 : ℚ) / 2) k) 100 1 black)
            (NewCanvas (100 : ℚ) 100)))
      ∧ gridVar ((100 : ℚ) / 2) 2 = 100 ∧ gridVar ((100 : ℚ) / 2) 3 = 150
      ∧ (NewCanvas (100 : ℚ) 100).Grid 1000 100 0 1 2 black = none := by
  have hin : ∀ k, k < 3 → gridVar ((100 : ℚ) / 2) k ≤ 100 := by
    intro k hk
    interval_cases k <;> norm_num [gridVar]
  have hpast : ¬ gridVar ((100 : ℚ) / 2) 3 ≤ 100 := by norm_num [gridVar]
  exact ⟨(Grid_returns_iff_vars_pass (NewCanvas (100 : ℚ) 100) 100 100 1 2 black).2.1 3 3
      hin hpast hin hpast 4 (by norm_num) (by norm_num),
    by norm_num [gridVar], by norm_num [gridVar],
    (Grid_returns_iff_vars_pass (NewCanvas (100 : ℚ) 100) 100 0 1 2 black).2.2
      (Or.inl ⟨le_refl _, by norm_num⟩) 1000⟩

/-! ## Images -/

section Images

variable {F : Type} [Add F] [Sub F] [Mul F] [Div F] [OfNat F 2] [OfNat F 100] [IntCast F]
  [LT F] [DecidableRel (fun a b : F => a < b)]

theorem CenterImage_open_error (osOpen : String → Except String File)
    (imageDecode : File → Except String Image) (c : Canvas F) (name : String) (x y : F)
    (w h : Int) (scale : F) (e : String) (ho : osOpen name = Except.error e) :
    c.CenterImage osOpen imageDecode name x y w h scale = c := by
  unfold Canvas.CenterImage
  rw [ho]

theorem CenterImage_decode_error (osOpen : String → Except String File)
    (imageDecode : File → Except String Image) (c : Canvas F) (name : String) (x y : F)
    (w h : Int) (scale : F) (r : File) (e : String) (ho : osOpen name = Except.ok r)
    (hd : imageDecode r = Except.error e) :
    c.CenterImage osOpen imageDecode name x y w h scale = c := by
  unfold Canvas.CenterImage
  rw [ho]
  simp only [hd]

theorem CenterImage_decoded_Ops (osOpen : String → Except String File)
    (imageDecode : File → Except String Image) (c : Canvas F) (name : String) (x y : F)
    (w h : Int) (scale : F) (r : File) (im : Image) (ho : osOpen name = Except.ok r)
    (hd : imageDecode r = Except.ok im) :
    (c.CenterImage osOpen imageDecode name x y w h scale).Ops =
      c.Ops ++ [Op.ImageOp im,
        Op.PaintOp (f32Rect
          (x - (if w = 0 ∧ h = 0 then
              ((im.Bounds.Max.X : F) * (scale / 100), (im.Bounds.Max.Y : F) * (scale / 100))
            else ((w : F) * (scale / 100), (h : F) * (scale / 100))).1 / 2)
          (y - (if w = 0 ∧ h = 0 then
              ((im.Bounds.Max.X : F) * (scale / 100), (im.Bounds.Max.Y : F) * (scale / 100))
            else ((w : F) * (scale / 100), (h : F) * (scale / 100))).2 / 2)
          (x - (if w = 0 ∧ h = 0 then
              ((im.Bounds.Max.X : F) * (scale / 100), (im.Bounds.Max.Y : F) * (scale / 100))
            else ((w : F) * (scale / 100), (h : F) * (scale / 100))).1 / 2
            + (if w = 0 ∧ h = 0 then
              ((im.Bounds.Max.X : F) * (scale / 100), (im.Bounds.Max.Y : F) * (scale / 100))
            else ((w : F) * (scale / 100), (h : F) * (scale / 100))).1)
          (y - (if w = 0 ∧ h = 0 then
              ((im.Bounds.Max.X : F) * (scale / 100), (im.Bounds.Max.Y : F) * (scale / 100))
            else ((w : F) * (scale / 100), (h : F) * (scale / 100))).2 / 2
            + (if w = 0 ∧ h = 0 then
              ((im.Bounds.Max.X : F) * (scale / 100), (im.Bounds.Max.Y : F) * (scale / 100))
            else ((w : F) * (scale / 100), (h : F) * (scale / 100))).2))] := by
  unfold Canvas.CenterImage
  rw [ho]
  simp only [hd, Canvas.add, List.append_assoc, List.singleton_append]

/-- C6: if the named file cannot be opened, or it opens and its bytes cannot be decoded,
`CenterImage` returns the canvas it was given: the operation list after the call is the
operation list before it, for every x, y, w, h and scale.  The function has no error
result.  Holds for any coordinate arithmetic. -/
theorem CenterImage_failure_appends_nothing (osOpen : String → Except String File)
    (imageDecode : File → Except String Image) (c : Canvas F) (name : String) (x y : F)
    (w h : Int) (scale : F)
    (hfail : (∃ e, osOpen name = Except.error e)
      ∨ (∃ r e, osOpen name = Except.ok r ∧ imageDecode r = Except.error e)) :
    (c.CenterImage osOpen imageDecode name x y w h scale).Ops = c.Ops
      ∧ c.CenterImage osOpen imageDecode name x y w h scale = c := by
  have key : c.CenterImage osOpen imageDecode name x y w h scale = c := by
    rcases hfail with ⟨e, ho⟩ | ⟨r, e, ho, hd⟩
    · exact CenterImage_open_error osOpen imageDecode c name x y w h scale e ho
    · exact CenterImage_decode_error osOpen imageDecode c name x y w h scale r e ho hd
  exact ⟨by rw [key], key⟩

theorem CenterImage_grows (osOpen : String → Except String File)
    (imageDecode : File → Except String Image) (c : Canvas F) (name : String) (x y : F)
    (w h : Int) (scale : F) :
    c.Ops <+: (c.CenterImage osOpen imageDecode name x y w h scale).Ops := by
  cases ho : osOpen name with
  | error e =>
    rw [CenterImage_open_error osOpen imageDecode c name x y w h scale e ho]
  | ok r =>
    cases hd : imageDecode r with
    | error e =>
      rw [CenterImage_decode_error osOpen imageDecode c name x y w h scale r e ho hd]
    | ok im =>
      rw [CenterImage_decoded_Ops osOpen imageDecode c name x y w h scale r im ho hd]
      exact List.prefix_append _ _

end Images

/-- C6 at concrete inputs: a missing file, and a file that is not an image, on a canvas
that already holds one rectangle. -/
theorem CenterImage_failure_appends_nothing_witness :
    ((((NewCanvas (100 : ℚ) 100).Rect 0 0 2 2 black).CenterImage openNothing
          decodeOffsetFrame "missing.png" 50 50 0 0 100).Ops =
        ((NewCanvas (100 : ℚ) 100).Rect 0 0 2 2 black).Ops
      ∧ ((NewCanvas (100 : ℚ) 100).Rect 0 0 2 2 black).CenterImage openNothing
          decodeOffsetFrame "missing.png" 50 50 0 0 100 =
        (NewCanvas (100 : ℚ) 100).Rect 0 0 2 2 black)
    ∧ ((((NewCanvas (100 : ℚ) 100).Rect 0 0 2 2 black).CenterImage openEmpty
          decodeNothing "empty.png" 50 50 20 10 100).Ops =
        ((NewCanvas (100 : ℚ) 100).Rect 0 0 2 2 black).Ops
      ∧ ((NewCanvas (100 : ℚ) 100).Rect 0 0 2 2 black).CenterImage openEmpty
          decodeNothing "empty.png" 50 50 20 10 100 =
        (NewCanvas (100 : ℚ) 100).Rect 0 0 2 2 black) :=
  ⟨CenterImage_failure_appends_nothing openNothing decodeOffsetFrame _ "missing.png" 50 50
      0 0 100 (Or.inl ⟨_, rfl⟩),
    CenterImage_failure_appends_nothing openEmpty decodeNothing _ "empty.png" 50 50
      20 10 100 (Or.inr ⟨_, _, rfl, rfl⟩)⟩

/-- Centring of a decoded image, coordinates as exact rationals: with the computed
dimensions `imw` and `imh`, the painted rectangle spans `(x - imw/2, y - imh/2)` to
`(x + imw/2, y + imh/2)`, where `(imw, imh)` is `(w, h)` times `scale/100`, or
`Bounds().Max` times `scale/100` when `w` and `h` are both zero. -/
theorem CenterImage_centered (osOpen : String → Except String File)
    (imageDecode : File → Except String Image) (c : Canvas ℚ) (name : String) (x y : ℚ)
    (w h : Int) (scale : ℚ) (r : File) (im : Image) (ho : osOpen name = Except.ok r)
    (hd : imageDecode r = Except.ok im) :
    (c.CenterImage osOpen imageDecode name x y w h scale).Ops =
      c.Ops ++ [Op.ImageOp im,
        Op.PaintOp (f32Rect
          (x - (if w = 0 ∧ h = 0 then (im.Bounds.Max.X : ℚ) else (w : ℚ)) * (scale / 100) / 2)
          (y - (if w = 0 ∧ h = 0 then (im.Bounds.Max.Y : ℚ) else (h : ℚ)) * (scale / 100) / 2)
          (x + (if w = 0 ∧ h = 0 then (im.Bounds.Max.X : ℚ) else (w : ℚ)) * (scale / 100) / 2)
          (y + (if w = 0 ∧ h = 0 then (im.Bounds.Max.Y : ℚ) else (h : ℚ)) * (scale / 100) / 2))]
    := by
  rw [CenterImage_decoded_Ops osOpen imageDecode c name x y w h scale r im ho hd]
  have e : ∀ a d : ℚ, a - d / 2 + d = a + d / 2 := fun a d => by ring
  by_cases hz : w = 0 ∧ h = 0
  · simp only [hz, and_self, if_true, e]
  · simp only [hz, if_false, e]

/-- C5, evaluated on a decoded image of natural size 200 by 100 whose bounds are
`(10,10)-(210,110)`: with `w = 0`, `h = 0` and `scale = 100` the painted rectangle is
centred at `(x, y)` but spans `(x-105, y-55)` to `(x+105, y+55)`, not `(x-100, y-50)` to
`(x+100, y+50)`: the dimensions are taken from `Bounds().Max`, not from the size. -/
theorem CenterImage_offset_bounds_span (c : Canvas ℚ) (x y : ℚ) :
    offsetFrame.Bounds.Dx = 200 ∧ offsetFrame.Bounds.Dy = 100
      ∧ (c.CenterImage openEmpty decodeOffsetFrame "frame.gif" x y 0 0 100).Ops =
        c.Ops ++ [Op.ImageOp offsetFrame,
          Op.PaintOp (f32Rect (x - 105) (y - 55) (x + 105) (y + 55))]
      ∧ f32Rect (x - 105) (y - 55) (x + 105) (y + 55) ≠
        f32Rect (x - 100) (y - 50) (x + 100) (y + 50) := by
  refine ⟨by decide, by decide, ?_, ?_⟩
  · rw [CenterImage_centered openEmpty decodeOffsetFrame c "frame.gif" x y 0 0 100
      { bytes := [] } offsetFrame rfl rfl]
    simp only [and_self, if_true, offsetFrame]
    norm_num
  · rw [f32Rect_of_le (x - 105) (y - 55) (x + 105) (y + 55) (by linarith) (by linarith),
      f32Rect_of_le (x - 100) (y - 50) (x + 100) (y + 50) (by linarith) (by linarith)]
    simp only [ne_eq, Rectangle.mk.injEq, Point.mk.injEq, not_and]
    intro h1
    linarith [h1.1]

/-- C10, evaluated on a decoded image of natural size 200 by 100 whose bounds are
`(10,10)-(210,110)`: with `w = 0`, `h = 0` and `scale = 200` the painted rectangle is
420 by 220, that is `Bounds().Max` times `scale/100`, not the natural width and height
times `scale/100`, which is 400 by 200. -/
theorem CenterImage_offset_bounds_dims :
    ((NewCanvas (400 : ℚ) 400).CenterImage openEmpty decodeOffsetFrame "frame.gif"
          200 200 0 0 200).Ops =
        [Op.ImageOp offsetFrame, Op.PaintOp (f32Rect (-10) 90 410 310)]
      ∧ (f32Rect (-10 : ℚ) 90 410 310).Dx = 420
      ∧ (f32Rect (-10 : ℚ) 90 410 310).Dy = 220
      ∧ (offsetFrame.Bounds.Dx : ℚ) * (200 / 100) = 400
      ∧ (offsetFrame.Bounds.Dy : ℚ) * (200 / 100) = 200 := by
  refine ⟨?_, ?_, ?_, ?_, ?_⟩
  · rw [CenterImage_centered openEmpty decodeOffsetFrame _ "frame.gif" 200 200 0 0 200
      { bytes := [] } offsetFrame rfl rfl]
    simp only [NewCanvas, List.nil_append, and_self, if_true, offsetFrame]
    norm_num
  · norm_num [Rectangle.Dx, f32Rect]
  · norm_num [Rectangle.Dy, f32Rect]
  · norm_num [IRectangle.Dx, offsetFrame]
  · norm_num [IRectangle.Dy, offsetFrame]

/-! ## The operation list only grows -/

/-- C9: under each of `Text`, `TextMid`, `TextEnd`, `Rect`, `CenterRect`, `VLine`,
`HLine`, `Grid` (whenever it returns) and `CenterImage` (whether or not the file opens
and decodes), the operation list before the call is a prefix of the operation list after
the call: no entry appended earlier is removed, reordered or changed.  Holds for any
coordinate arithmetic. -/
theorem Ops_append_only {F : Type} [Add F] [Sub F] [Mul F] [Div F] [OfNat F 2] [OfNat F 0]
    [OfNat F 100] [IntCast F] [LT F] [DecidableRel (fun a b : F => a < b)] [LE F]
    [DecidableRel (fun a b : F => a ≤ b)] (c : Canvas F) :
    (∀ (x y size : F) (s : String) (color : RGBA), c.Ops <+: (c.Text x y size s color).Ops)
      ∧ (∀ (x y size : F) (s : String) (color : RGBA),
          c.Ops <+: (c.TextMid x y size s color).Ops)
      ∧ (∀ (x y size : F) (s : String) (color : RGBA),
          c.Ops <+: (c.TextEnd x y size s color).Ops)
      ∧ (∀ (x y w h : F) (color : RGBA), c.Ops <+: (c.Rect x y w h color).Ops)
      ∧ (∀ (x y w h : F) (color : RGBA), c.Ops <+: (c.CenterRect x y w h color).Ops)
      ∧ (∀ (x y w h : F) (color : RGBA), c.Ops <+: (c.VLine x y w h color).Ops)
      ∧ (∀ (x y w h : F) (color : RGBA), c.Ops <+: (c.HLine x y w h color).Ops)
      ∧ (∀ (fuel : ℕ) (width height size interval : F) (color : RGBA) (c2 : Canvas F),
          c.Grid fuel width height size interval color = some c2 → c.Ops <+: c2.Ops)
      ∧ (∀ (osOpen : String → Except String File) (imageDecode : File → Except String Image)
          (name : String) (x y : F) (w h : Int) (scale : F),
          c.Ops <+: (c.CenterImage osOpen imageDecode name x y w h scale).Ops) := by
  refine ⟨?_, ?_, ?_, ?_, ?_, ?_, ?_, ?_, ?_⟩
  · intro x y size s color
    exact textops_grows c x y size Alignment.Start s color
  · intro x y size s color
    exact textops_grows c x y size Alignment.Middle s color
  · intro x y size s color
    exact textops_grows c x y size Alignment.End s color
  · intro x y w h color
    exact Rect_grows c x y w h color
  · intro x y w h color
    exact CenterRect_grows c x y w h color
  · intro x y w h color
    exact Rect_grows c (x - w / 2) y w h color
  · intro x y w h color
    exact Rect_grows c x (y - h / 2) w h color
  · intro fuel width height size interval color c2 hrun
    exact Grid_grows fuel c width height size interval color c2 hrun
  · intro osOpen imageDecode name x y w h scale
    exact CenterImage_grows osOpen imageDecode c name x y w h scale

/-- C9 at a concrete input: on a canvas that already holds a label, the grid of width and
height 100 with 10 intervals returns, and the label's four operations are still the first
four of the list. -/
theorem Ops_append_only_witness :
    ∃ c2 : Canvas ℚ,
      ((NewCanvas (100 : ℚ) 100).Text 10 10 3 "grid" black).Grid 12 100 100 1 ((10 : ℕ) : ℚ)
          black = some c2
        ∧ ((NewCanvas (100 : ℚ) 100).Text 10 10 3 "grid" black).Ops <+: c2.Ops :=
  ⟨_, Grid_eq_foldl _ 100 100 1 10 black 12 (by norm_num) (by norm_num) (by norm_num)
      (by norm_num),
    (Ops_append_only ((NewCanvas (100 : ℚ) 100).Text 10 10 3 "grid" black)).2.2.2.2.2.2.2.1
      12 100 100 1 ((10 : ℕ) : ℚ) black _
      (Grid_eq_foldl _ 100 100 1 10 black 12 (by norm_num) (by norm_num) (by norm_num)
        (by norm_num))⟩

end Giocanvas
